import Mathlib

/-!
Verification of the image-optimization pipeline of this repository.

The embedded functions follow the JavaScript source:
* `calculateDimensions`, `processImage`, `optimizeImage` from the image
  service module (the file also defining `MAX_WIDTH`/`MAX_HEIGHT`);
* the download-filename construction from the `handleDownload` /
  `handleDownloadAllAsZip` handlers of `ImageOptimizer.jsx`.

JavaScript numbers on the relevant ranges are embedded as `ℤ` (integer
pixel dimensions) and `ℚ` (ratios and quality factors); `Math.round` is
`⌊x + 1/2⌋`, which matches JavaScript round-half-up on these values.
JavaScript strings are embedded as `String` or `List Char`.
-/

/-- JavaScript `Math.round`: round half towards positive infinity. -/
def jsRound (x : ℚ) : ℤ := Rat.floor (x + 1 / 2)

/-- `jsRound` is the mathematical floor of `x + 1/2`. -/
theorem jsRound_eq (x : ℚ) : jsRound x = ⌊x + 1 / 2⌋ := by
  rw [jsRound, Rat.floor_def, Rat.floor_def']

/-- `const MAX_WIDTH = 1920` from the image service module. -/
def MAX_WIDTH : ℤ := 1920

/-- `const MAX_HEIGHT = 1080` from the image service module. -/
def MAX_HEIGHT : ℤ := 1080

/-- The `calculateDimensions` function of the image service, embedded
statement by statement: the early return when both dimensions are within
bounds, then `aspectRatio = width / height`, then the two sequential
clamps (the JavaScript reassigns `width`/`height`; the intermediate
values are the `w1`/`h1` lets here). -/
def calculateDimensions (width height : ℤ) : ℤ × ℤ :=
  if width ≤ MAX_WIDTH ∧ height ≤ MAX_HEIGHT then
    (width, height)
  else
    let aspectRatio : ℚ := (width : ℚ) / (height : ℚ)
    let w1 : ℤ := if width > MAX_WIDTH then MAX_WIDTH else width
    let h1 : ℤ := if width > MAX_WIDTH then jsRound ((MAX_WIDTH : ℚ) / aspectRatio) else height
    let h2 : ℤ := if h1 > MAX_HEIGHT then MAX_HEIGHT else h1
    let w2 : ℤ := if h1 > MAX_HEIGHT then jsRound ((MAX_HEIGHT : ℚ) * aspectRatio) else w1
    (w2, h2)

/-- The Dimension Planner contract of spec section 4.1, written from the
spec words (for the refinement comparison with `calculateDimensions`):
pass-through when within bounds, else `aspectRatio = sourceWidth /
sourceHeight`, clamp the width first, then re-check and possibly clamp
the height. -/
def specPlan (sourceWidth sourceHeight maxWidth maxHeight : ℤ) : ℤ × ℤ :=
  if sourceWidth ≤ maxWidth ∧ sourceHeight ≤ maxHeight then
    (sourceWidth, sourceHeight)
  else
    let aspectRatio : ℚ := (sourceWidth : ℚ) / (sourceHeight : ℚ)
    let w1 : ℤ := if sourceWidth > maxWidth then maxWidth else sourceWidth
    let h1 : ℤ := if sourceWidth > maxWidth then jsRound ((maxWidth : ℚ) / aspectRatio) else sourceHeight
    let h2 : ℤ := if h1 > maxHeight then maxHeight else h1
    let w2 : ℤ := if h1 > maxHeight then jsRound ((maxHeight : ℚ) * aspectRatio) else w1
    (w2, h2)

/-! ### Helper lemmas about `jsRound` -/

theorem jsRound_nonneg {x : ℚ} (h : 0 ≤ x) : 0 ≤ jsRound x := by
  rw [jsRound_eq]
  exact Int.floor_nonneg.mpr (by linarith)

theorem jsRound_le {x : ℚ} {n : ℤ} (h : x < (n : ℚ) + 1 / 2) : jsRound x ≤ n := by
  rw [jsRound_eq]
  have hlt : ⌊x + 1 / 2⌋ < n + 1 := Int.floor_lt.mpr (by push_cast; linarith)
  omega

theorem le_of_le_jsRound {x : ℚ} {n : ℤ} (h : n ≤ jsRound x) : (n : ℚ) ≤ x + 1 / 2 := by
  rw [jsRound_eq] at h
  exact Int.le_floor.mp h

theorem jsRound_sub_abs_le (x : ℚ) : |(jsRound x : ℚ) - x| ≤ 1 / 2 := by
  rw [jsRound_eq, abs_le]
  constructor
  · have h := Int.sub_one_lt_floor (x + 1 / 2)
    linarith
  · have h := Int.floor_le (x + 1 / 2)
    linarith

/-! ### Structural lemmas about `calculateDimensions` -/

/-- The early-return branch: dimensions within bounds pass through. -/
theorem calculateDimensions_in_bounds {w h : ℤ} (hw : w ≤ MAX_WIDTH) (hh : h ≤ MAX_HEIGHT) :
    calculateDimensions w h = (w, h) := by
  unfold calculateDimensions
  rw [if_pos ⟨hw, hh⟩]

/-- Outside the bounds, the result is one of the two clamp shapes: width
pinned to `MAX_WIDTH` with rounded height, or height pinned to
`MAX_HEIGHT` with rounded width. -/
theorem calculateDimensions_out {w h : ℤ} (hout : ¬(w ≤ MAX_WIDTH ∧ h ≤ MAX_HEIGHT)) :
    (calculateDimensions w h = (MAX_WIDTH, jsRound ((MAX_WIDTH : ℚ) / ((w : ℚ) / (h : ℚ))))
      ∧ jsRound ((MAX_WIDTH : ℚ) / ((w : ℚ) / (h : ℚ))) ≤ MAX_HEIGHT)
    ∨ (calculateDimensions w h = (jsRound ((MAX_HEIGHT : ℚ) * ((w : ℚ) / (h : ℚ))), MAX_HEIGHT)
      ∧ (w ≤ MAX_WIDTH ∨ MAX_HEIGHT < jsRound ((MAX_WIDTH : ℚ) / ((w : ℚ) / (h : ℚ))))) := by
  unfold calculateDimensions
  rw [if_neg hout]
  by_cases hwide : w > MAX_WIDTH
  · by_cases hcl : jsRound ((MAX_WIDTH : ℚ) / ((w : ℚ) / (h : ℚ))) > MAX_HEIGHT
    · right
      refine ⟨?_, Or.inr hcl⟩
      simp [hwide, hcl]
    · left
      refine ⟨?_, by omega⟩
      simp [hwide, hcl]
  · have hh : h > MAX_HEIGHT := by
      rcases not_and_or.mp hout with hc | hc
      · omega
      · omega
    right
    refine ⟨?_, Or.inl (by omega)⟩
    simp [hwide, hh]

/-- Key numeric bound: whenever the second clamp fires, the recomputed
width stays within `MAX_WIDTH`. -/
theorem secondClamp_width_le {w h : ℤ} (hw : 0 < w) (hh : 0 < h)
    (hcase : (w ≤ MAX_WIDTH ∧ MAX_HEIGHT < h)
      ∨ MAX_HEIGHT < jsRound ((MAX_WIDTH : ℚ) / ((w : ℚ) / (h : ℚ)))) :
    jsRound ((MAX_HEIGHT : ℚ) * ((w : ℚ) / (h : ℚ))) ≤ MAX_WIDTH := by
  have hwq : (0 : ℚ) < (w : ℚ) := by exact_mod_cast hw
  have hhq : (0 : ℚ) < (h : ℚ) := by exact_mod_cast hh
  have hr : (0 : ℚ) < (w : ℚ) / (h : ℚ) := div_pos hwq hhq
  apply jsRound_le
  rcases hcase with hle | hgt
  · have hw1 : w ≤ 1920 := hle.1
    have hh1 : (1081 : ℤ) ≤ h := by
      have h5 : (1080 : ℤ) < h := hle.2
      omega
    have h1 : (w : ℚ) ≤ 1920 := by exact_mod_cast hw1
    have h2 : (1081 : ℚ) ≤ (h : ℚ) := by exact_mod_cast hh1
    have h3 : (w : ℚ) / (h : ℚ) ≤ 1920 / 1081 :=
      div_le_div₀ (by norm_num) h1 (by norm_num) h2
    simp only [MAX_WIDTH, MAX_HEIGHT]
    push_cast
    linarith
  · have h1 : MAX_HEIGHT + 1 ≤ jsRound ((MAX_WIDTH : ℚ) / ((w : ℚ) / (h : ℚ))) := by omega
    have h2 := le_of_le_jsRound h1
    simp only [MAX_WIDTH, MAX_HEIGHT] at h2 ⊢
    push_cast at h2 ⊢
    have h3 : (2161 / 2 : ℚ) ≤ 1920 / ((w : ℚ) / (h : ℚ)) := by linarith
    have h4 : (2161 / 2 : ℚ) * ((w : ℚ) / (h : ℚ)) ≤ 1920 := by
      calc (2161 / 2 : ℚ) * ((w : ℚ) / (h : ℚ))
          ≤ (1920 / ((w : ℚ) / (h : ℚ))) * ((w : ℚ) / (h : ℚ)) :=
            mul_le_mul_of_nonneg_right h3 (le_of_lt hr)
        _ = 1920 := div_mul_cancel₀ _ (ne_of_gt hr)
    linarith

/-- Both components of the planned dimensions are nonnegative and bounded
by the configured maxima, for every positive source. -/
theorem calculateDimensions_bounds {w h : ℤ} (hw : 0 < w) (hh : 0 < h) :
    0 ≤ (calculateDimensions w h).1 ∧ (calculateDimensions w h).1 ≤ MAX_WIDTH ∧
    0 ≤ (calculateDimensions w h).2 ∧ (calculateDimensions w h).2 ≤ MAX_HEIGHT := by
  have hwq : (0 : ℚ) < (w : ℚ) := by exact_mod_cast hw
  have hhq : (0 : ℚ) < (h : ℚ) := by exact_mod_cast hh
  have hr : (0 : ℚ) < (w : ℚ) / (h : ℚ) := div_pos hwq hhq
  by_cases hin : w ≤ MAX_WIDTH ∧ h ≤ MAX_HEIGHT
  · rw [calculateDimensions_in_bounds hin.1 hin.2]
    exact ⟨by omega, hin.1, by omega, hin.2⟩
  · rcases calculateDimensions_out hin with ⟨heq, hle⟩ | ⟨heq, hcase⟩
    · rw [heq]
      refine ⟨by simp [MAX_WIDTH], by simp, ?_, hle⟩
      exact jsRound_nonneg (le_of_lt (div_pos (by norm_num [MAX_WIDTH]) hr))
    · rw [heq]
      have hcase2 : (w ≤ MAX_WIDTH ∧ MAX_HEIGHT < h)
          ∨ MAX_HEIGHT < jsRound ((MAX_WIDTH : ℚ) / ((w : ℚ) / (h : ℚ))) := by
        rcases hcase with hc | hc
        · left
          exact ⟨hc, by omega⟩
        · right
          exact hc
      refine ⟨?_, secondClamp_width_le hw hh hcase2, by simp [MAX_HEIGHT], by simp⟩
      exact jsRound_nonneg (le_of_lt (mul_pos (by norm_num [MAX_HEIGHT]) hr))

/-! ### Claims about the Dimension Planner -/

/-- C1: the Dimension Planner implements the spec's two-step clamp — for
every positive source exceeding the maxima, `calculateDimensions` equals
the spec-worded `specPlan` at the code maxima 1920×1080; in particular
`plan(3840, 2160) = (1920, 1080)` and `plan(3840, 1080) = (1920, 540)`. -/
theorem claim_C1_two_step_clamp :
    (∀ w h : ℤ, 0 < w → 0 < h → ¬(w ≤ MAX_WIDTH ∧ h ≤ MAX_HEIGHT) →
      calculateDimensions w h = specPlan w h MAX_WIDTH MAX_HEIGHT)
    ∧ calculateDimensions 3840 2160 = (1920, 1080)
    ∧ calculateDimensions 3840 1080 = (1920, 540) := by
  refine ⟨fun w h _ _ _ => rfl, ?_, ?_⟩
  · norm_num [calculateDimensions, jsRound_eq, MAX_WIDTH, MAX_HEIGHT]
  · norm_num [calculateDimensions, jsRound_eq, MAX_WIDTH, MAX_HEIGHT]

/-- Witness for C1 at the concrete out-of-bounds source 3000×2000. -/
theorem claim_C1_witness :
    calculateDimensions 3000 2000 = specPlan 3000 2000 MAX_WIDTH MAX_HEIGHT :=
  claim_C1_two_step_clamp.1 3000 2000 (by decide) (by decide) (by decide)

/-- C2: sources within the maxima pass through unchanged (no upscaling),
including the boundary case 1920×1080. -/
theorem claim_C2_no_upscaling :
    (∀ w h : ℤ, 0 < w → 0 < h → w ≤ MAX_WIDTH → h ≤ MAX_HEIGHT →
      calculateDimensions w h = (w, h))
    ∧ calculateDimensions 1920 1080 = (1920, 1080) :=
  ⟨fun _ _ _ _ hw hh => calculateDimensions_in_bounds hw hh,
   calculateDimensions_in_bounds (by decide) (by decide)⟩

/-- Witness for C2 at the concrete in-bounds source 800×600. -/
theorem claim_C2_witness : calculateDimensions 800 600 = (800, 600) :=
  claim_C2_no_upscaling.1 800 600 (by decide) (by decide) (by decide) (by decide)

/-- Counterexample to C3 as stated: the source 4000×1 is positive, but the
planned height is 0, which is not a positive integer. -/
theorem claim_C3_counterexample :
    calculateDimensions 4000 1 = (1920, 0) ∧ ¬ 0 < (calculateDimensions 4000 1).2 := by
  constructor
  · norm_num [calculateDimensions, jsRound_eq, MAX_WIDTH, MAX_HEIGHT]
  · norm_num [calculateDimensions, jsRound_eq, MAX_WIDTH, MAX_HEIGHT]

/-- C3 (amended): for every positive source, both planned components are
nonnegative integers bounded above by the configured maxima, on every
branch; positivity of a component can fail for extreme aspect ratios. -/
theorem claim_C3_dimension_invariant (w h : ℤ) (hw : 0 < w) (hh : 0 < h) :
    0 ≤ (calculateDimensions w h).1 ∧ (calculateDimensions w h).1 ≤ MAX_WIDTH ∧
    0 ≤ (calculateDimensions w h).2 ∧ (calculateDimensions w h).2 ≤ MAX_HEIGHT :=
  calculateDimensions_bounds hw hh

/-- Witness for C3 (amended) at the concrete source 3840×2160. -/
theorem claim_C3_witness :
    0 ≤ (calculateDimensions 3840 2160).1 ∧ (calculateDimensions 3840 2160).1 ≤ MAX_WIDTH ∧
    0 ≤ (calculateDimensions 3840 2160).2 ∧ (calculateDimensions 3840 2160).2 ≤ MAX_HEIGHT :=
  claim_C3_dimension_invariant 3840 2160 (by decide) (by decide)

/-- C7: outside the maxima, the planned dimensions are an exact isotropic
rescaling of the source up to at most one half-unit rounding error per
axis: some exact pair with the source's aspect ratio lies within 1/2 of
the returned integer pair, componentwise. -/
theorem claim_C7_aspect_ratio (w h : ℤ) (hw : 0 < w) (hh : 0 < h)
    (hout : ¬(w ≤ MAX_WIDTH ∧ h ≤ MAX_HEIGHT)) :
    ∃ We He : ℚ, 0 < He ∧ We / He = (w : ℚ) / (h : ℚ) ∧
      |((calculateDimensions w h).1 : ℚ) - We| ≤ 1 / 2 ∧
      |((calculateDimensions w h).2 : ℚ) - He| ≤ 1 / 2 := by
  have hwq : (0 : ℚ) < (w : ℚ) := by exact_mod_cast hw
  have hhq : (0 : ℚ) < (h : ℚ) := by exact_mod_cast hh
  have hr : (0 : ℚ) < (w : ℚ) / (h : ℚ) := div_pos hwq hhq
  rcases calculateDimensions_out hout with ⟨heq, _⟩ | ⟨heq, _⟩
  · refine ⟨(MAX_WIDTH : ℚ), (MAX_WIDTH : ℚ) / ((w : ℚ) / (h : ℚ)), ?_, ?_, ?_, ?_⟩
    · exact div_pos (by norm_num [MAX_WIDTH]) hr
    · rw [div_div_eq_mul_div]
      exact mul_div_cancel_left₀ _ (by norm_num [MAX_WIDTH])
    · rw [heq]
      simp
    · rw [heq]
      exact jsRound_sub_abs_le _
  · refine ⟨(MAX_HEIGHT : ℚ) * ((w : ℚ) / (h : ℚ)), (MAX_HEIGHT : ℚ), ?_, ?_, ?_, ?_⟩
    · norm_num [MAX_HEIGHT]
    · exact mul_div_cancel_left₀ _ (by norm_num [MAX_HEIGHT])
    · rw [heq]
      exact jsRound_sub_abs_le _
    · rw [heq]
      simp

/-- Witness for C7 at the concrete out-of-bounds source 3840×2160. -/
theorem claim_C7_witness :
    ∃ We He : ℚ, 0 < He ∧ We / He = ((3840 : ℤ) : ℚ) / ((2160 : ℤ) : ℚ) ∧
      |((calculateDimensions 3840 2160).1 : ℚ) - We| ≤ 1 / 2 ∧
      |((calculateDimensions 3840 2160).2 : ℚ) - He| ≤ 1 / 2 :=
  claim_C7_aspect_ratio 3840 2160 (by decide) (by decide) (by decide)

/-- C10: the Dimension Planner is idempotent on every positive source —
replanning its own output returns that output unchanged. -/
theorem claim_C10_idempotent (w h : ℤ) (hw : 0 < w) (hh : 0 < h) :
    calculateDimensions (calculateDimensions w h).1 (calculateDimensions w h).2 =
      calculateDimensions w h := by
  obtain ⟨h1, h2, h3, h4⟩ := calculateDimensions_bounds hw hh
  rw [calculateDimensions_in_bounds h2 h4]

/-- Witness for C10 at the concrete source 2500×1500. -/
theorem claim_C10_witness :
    calculateDimensions (calculateDimensions 2500 1500).1 (calculateDimensions 2500 1500).2 =
      calculateDimensions 2500 1500 :=
  claim_C10_idempotent 2500 1500 (by decide) (by decide)

/-! ### The processImage / optimizeImage pipeline -/

/-- The MIME type computed inside `processImage`:
the template `image/` + (`format === 'jpeg' ? 'jpeg' : format`).
No validation of `format` occurs anywhere in the function. -/
def mimeTypeOf (format : String) : String :=
  "image/" ++ (if format = "jpeg" then "jpeg" else format)

/-- The quality factor handed to `canvas.toDataURL`: the expression
`quality / 100` of `processImage`, with no clamping anywhere. -/
def qualityFactor (quality : ℚ) : ℚ := quality / 100

/-- Decoded image metadata (the `img` of `optimizeImage`). -/
structure ImgMeta where
  width : ℤ
  height : ℤ

/-- The output blob: the byte count of the `atob` copy loop and the MIME
type passed to the `Blob` constructor. -/
structure Blob where
  size : ℕ
  mime : String

/-- `processImage`, embedded: plan the dimensions, build the MIME type
(no format validation), call the canvas encoder — abstracted as
`toDataURL`, which receives the canvas dimensions, the MIME type and the
quality factor and yields the encoded bytes or throws — and rewrap the
bytes into a `Blob` of that MIME type (the `atob` loop copies
`byteString.length` bytes, so the blob size is the byte count). The
pixel-level fill/draw phase is modelled separately by `composeCanvas`. -/
def processImage (toDataURL : ℤ × ℤ → String → ℚ → Except String (List ℕ))
    (img : ImgMeta) (quality : ℚ) (format : String) : Except String Blob :=
  let dims := calculateDimensions img.width img.height
  let mimeType := mimeTypeOf format
  match toDataURL dims mimeType (qualityFactor quality) with
  | Except.error e => Except.error e
  | Except.ok bytes => Except.ok { size := bytes.length, mime := mimeType }

/-- The complete result object resolved by `optimizeImage`. -/
structure OptimizedResult where
  file : Blob
  originalSize : ℕ
  newSize : ℕ
  name : String
  preview : String

/-- The `optimizeImage` orchestrator, embedded over its effectful
collaborators: the `FileReader` (`readResult` — the data URL, or the
`reader.onerror` rejection), the `Image` loader (`loadImage` — decoded
metadata for a data URL, or the `img.onerror` rejection), the canvas
encoder used by `processImage`, and `URL.createObjectURL`. Matching the
callback structure of the source, each failing step rejects the promise
with that step's error; only after `processImage` succeeds is the
five-field result object built and resolved. -/
def optimizeImage (fileSize : ℕ) (fileName : String)
    (readResult : Except String String)
    (loadImage : String → Except String ImgMeta)
    (toDataURL : ℤ × ℤ → String → ℚ → Except String (List ℕ))
    (createObjectURL : Blob → String)
    (quality : ℚ) (format : String) : Except String OptimizedResult :=
  match readResult with
  | Except.error e => Except.error e
  | Except.ok dataUrl =>
    match loadImage dataUrl with
    | Except.error e => Except.error e
    | Except.ok img =>
      match processImage toDataURL img quality format with
      | Except.error e => Except.error e
      | Except.ok optimizedBlob =>
        Except.ok { file := optimizedBlob, originalSize := fileSize,
                    newSize := optimizedBlob.size, name := fileName,
                    preview := createObjectURL optimizedBlob }

/-! ### The compositing phase (fillRect + drawImage) -/

/-- A pixel, non-premultiplied RGBA with rational channels. -/
structure RGBA where
  r : ℚ
  g : ℚ
  b : ℚ
  a : ℚ

/-- `ctx.fillStyle = '#FFFFFF'`: opaque white. -/
def white : RGBA := ⟨1, 1, 1, 1⟩

/-- Canvas 2D source-over compositing (the default
`globalCompositeOperation`) of a source pixel onto a destination pixel. -/
def srcOver (s d : RGBA) : RGBA :=
  let a := s.a + d.a * (1 - s.a)
  { r := (s.r * s.a + d.r * d.a * (1 - s.a)) / a
    g := (s.g * s.a + d.g * d.a * (1 - s.a)) / a
    b := (s.b * s.a + d.b * d.a * (1 - s.a)) / a
    a := a }

/-- The compositing phase of `processImage`: `ctx.fillRect(0, 0, width,
height)` paints every target pixel opaque white, then `ctx.drawImage(img,
0, 0, width, height)` source-over-composites the source — scaled to
exactly fill the target; `sample` gives the scaled source pixel at each
target coordinate, the host's resampling filter being abstract — onto
that white base. -/
def composeCanvas (sample : ℤ × ℤ → RGBA) (p : ℤ × ℤ) : RGBA :=
  srcOver (sample p) white

/-! ### Claims about the Encoder, Compositor and Orchestrator -/

/-- Counterexample to C4 as stated: the format string `bogus-format` is
mapped to the MIME type `image/bogus-format` — none of the three supported
MIME types — and the encode step does not fail: with any succeeding
backend, `processImage` succeeds rather than raising an
`UnsupportedFormatError` (no such error exists in the code). -/
theorem claim_C4_counterexample :
    mimeTypeOf "bogus-format" = "image/bogus-format" ∧
    ¬ (mimeTypeOf "bogus-format" = "image/jpeg" ∨
       mimeTypeOf "bogus-format" = "image/png" ∨
       mimeTypeOf "bogus-format" = "image/webp") ∧
    processImage (fun _ _ _ => Except.ok []) ⟨100, 100⟩ 80 "bogus-format" =
      Except.ok { size := 0, mime := "image/bogus-format" } := by
  refine ⟨by decide, by decide, rfl⟩

/-- C4 (amended): the Encoder maps the three supported formats to their
MIME types, with `jpeg` as the special-cased branch of the template; but
it validates nothing: every other format string `f` is passed through as
`image/f`, and whenever the backend succeeds the encode step succeeds
for any format string whatsoever — no `UnsupportedFormatError` is ever
raised. -/
theorem claim_C4_format_mapping :
    (mimeTypeOf "jpeg" = "image/jpeg" ∧ mimeTypeOf "png" = "image/png" ∧
      mimeTypeOf "webp" = "image/webp") ∧
    (∀ f : String, ¬ f = "jpeg" → mimeTypeOf f = "image/" ++ f) ∧
    (∀ (toDataURL : ℤ × ℤ → String → ℚ → Except String (List ℕ))
        (img : ImgMeta) (q : ℚ) (format : String) (bytes : List ℕ),
      toDataURL (calculateDimensions img.width img.height) (mimeTypeOf format)
          (qualityFactor q) = Except.ok bytes →
      processImage toDataURL img q format =
        Except.ok { size := bytes.length, mime := mimeTypeOf format }) := by
  refine ⟨⟨by decide, by decide, by decide⟩, ?_, ?_⟩
  · intro f hf
    simp [mimeTypeOf, hf]
  · intro toDataURL img q format bytes hok
    simp [processImage, hok]

/-- Witness for C4 (amended): a succeeding backend and the unsupported
format string `bogus-format` yield a successful encode. -/
theorem claim_C4_witness :
    processImage (fun _ _ _ => Except.ok [7, 7]) ⟨4000, 3000⟩ 80 "bogus-format" =
      Except.ok { size := [7, 7].length, mime := mimeTypeOf "bogus-format" } :=
  claim_C4_format_mapping.2.2 (fun _ _ _ => Except.ok [7, 7]) ⟨4000, 3000⟩ 80 "bogus-format"
    [7, 7] rfl

/-- Counterexample to C5 as stated: the caller-supplied quality 200 is
not clamped to [1, 100]; the factor handed to the backend is 2, outside
[0.01, 1.0]. -/
theorem claim_C5_counterexample :
    qualityFactor 200 = 2 ∧ ¬ qualityFactor 200 ≤ 1 := by
  constructor
  · norm_num [qualityFactor]
  · norm_num [qualityFactor]

/-- C5 (amended): the pipeline performs no clamping: the Encoder hands
`quality / 100` to the backend unchanged, so the factor lies in
[0.01, 1.0] exactly when the caller's quality lies in [1, 100] (which the
UI slider enforces, but the pipeline itself does not). -/
theorem claim_C5_quality_factor (q : ℚ) :
    (1 / 100 ≤ qualityFactor q ∧ qualityFactor q ≤ 1) ↔ (1 ≤ q ∧ q ≤ 100) := by
  rw [qualityFactor]
  constructor
  · rintro ⟨h1, h2⟩
    constructor <;> linarith
  · rintro ⟨h1, h2⟩
    constructor <;> linarith

/-- C6: after the white fill, source-over drawing makes every composited
pixel fully opaque, and wherever the scaled source is fully transparent
(background regions) the composited pixel is exactly opaque white. -/
theorem claim_C6_white_flatten :
    (∀ (sample : ℤ × ℤ → RGBA) (p : ℤ × ℤ), (composeCanvas sample p).a = 1) ∧
    (∀ (sample : ℤ × ℤ → RGBA) (p : ℤ × ℤ), (sample p).a = 0 →
      composeCanvas sample p = white) := by
  constructor
  · intro sample p
    simp [composeCanvas, srcOver, white]
  · intro sample p ha
    simp [composeCanvas, srcOver, white, ha]

/-- Witness for C6 at a fully transparent source pixel. -/
theorem claim_C6_witness :
    composeCanvas (fun _ => ⟨0, 0, 0, 0⟩) (0, 0) = white :=
  claim_C6_white_flatten.2 (fun _ => ⟨0, 0, 0, 0⟩) (0, 0) rfl

/-- C8: for every input and every behavior of the effectful steps, the
orchestrator either resolves with a complete `OptimizedResult` — output
blob, original size, new size equal to the blob's size, name, preview
handle — or rejects with exactly the error of the first failing step
(file read, image load, or processing); no partially-built result is
ever produced and no step is retried. -/
theorem claim_C8_all_or_nothing (fileSize : ℕ) (fileName : String)
    (readResult : Except String String) (loadImage : String → Except String ImgMeta)
    (toDataURL : ℤ × ℤ → String → ℚ → Except String (List ℕ))
    (createObjectURL : Blob → String) (quality : ℚ) (format : String) :
    (∃ r : OptimizedResult,
      optimizeImage fileSize fileName readResult loadImage toDataURL createObjectURL
          quality format = Except.ok r ∧
      r.originalSize = fileSize ∧ r.name = fileName ∧
      r.newSize = r.file.size ∧ r.preview = createObjectURL r.file)
    ∨ (∃ e : String,
      optimizeImage fileSize fileName readResult loadImage toDataURL createObjectURL
          quality format = Except.error e ∧
      (readResult = Except.error e
        ∨ (∃ d, readResult = Except.ok d ∧ loadImage d = Except.error e)
        ∨ (∃ d img, readResult = Except.ok d ∧ loadImage d = Except.ok img ∧
            processImage toDataURL img quality format = Except.error e))) := by
  cases hread : readResult with
  | error e =>
    right
    exact ⟨e, by simp [optimizeImage], Or.inl rfl⟩
  | ok d =>
    cases hload : loadImage d with
    | error e =>
      right
      refine ⟨e, ?_, Or.inr (Or.inl ⟨d, rfl, hload⟩)⟩
      simp [optimizeImage, hload]
    | ok img =>
      cases hproc : processImage toDataURL img quality format with
      | error e =>
        right
        refine ⟨e, ?_, Or.inr (Or.inr ⟨d, img, rfl, hload, hproc⟩)⟩
        simp [optimizeImage, hload, hproc]
      | ok b =>
        left
        refine ⟨{ file := b, originalSize := fileSize, newSize := b.size,
                  name := fileName, preview := createObjectURL b }, ?_, rfl, rfl, rfl, rfl⟩
        simp [optimizeImage, hload, hproc]

/-! ### The download filename (handleDownload / handleDownloadAllAsZip) -/

/-- JavaScript `name.split('.')[0]`: the characters before the first
dot, or the whole name when it contains no dot. -/
def splitDotHead : List Char → List Char
  | [] => []
  | c :: cs => if c = '.' then [] else c :: splitDotHead cs

/-- The extension chosen in `handleDownload` and `handleDownloadAllAsZip`:
`.webp` for webp, `.png` for png, and `.jpg` otherwise (jpeg included). -/
def extensionFor (format : String) : List Char :=
  if format = "webp" then ".webp".toList
  else if format = "png" then ".png".toList
  else ".jpg".toList

/-- The download filename built (identically) in `handleDownload` and in
`handleDownloadAllAsZip`:
`optimized_` + `originalImage.name.split('.')[0]` + extension. -/
def downloadFilename (name : List Char) (format : String) : List Char :=
  "optimized_".toList ++ splitDotHead name ++ extensionFor format

/-- The filename form of spec section 6, written from the spec words (for
the refinement comparison with `downloadFilename`): `optimized_` + the
original filename without its extension + the mapped extension, where
removing the extension drops the final dot-suffix (and leaves a dotless
name unchanged). -/
def specBaseName (name : List Char) : List Char :=
  if '.' ∈ name then ((name.reverse.dropWhile (fun c => ¬ c = '.')).drop 1).reverse
  else name

/-- The spec-worded suggested filename, for the refinement comparison. -/
def specDownloadFilename (name : List Char) (format : String) : List Char :=
  "optimized_".toList ++ specBaseName name ++ extensionFor format

/-- `split('.')[0]` of a dotless name is the whole name. -/
theorem splitDotHead_no_dot : ∀ {stem : List Char}, '.' ∉ stem → splitDotHead stem = stem
  | [], _ => rfl
  | c :: cs, h => by
    have hc : ¬ c = '.' := fun hceq => h (by simp [hceq])
    have hcs : '.' ∉ cs := fun hm => h (List.mem_cons_of_mem _ hm)
    rw [splitDotHead, if_neg hc, splitDotHead_no_dot hcs]

/-- `split('.')[0]` cuts at the first dot. -/
theorem splitDotHead_append_dot {stem : List Char} (h : '.' ∉ stem) (rest : List Char) :
    splitDotHead (stem ++ '.' :: rest) = stem := by
  induction stem with
  | nil => simp [splitDotHead]
  | cons c cs ih =>
    have hc : ¬ c = '.' := fun hceq => h (by simp [hceq])
    have hcs : '.' ∉ cs := fun hm => h (List.mem_cons_of_mem _ hm)
    simp only [List.cons_append, splitDotHead, if_neg hc]
    exact congrArg (fun l => c :: l) (ih hcs)

/-- Counterexample to C9 as stated: for the original filename `a.b.png`
(png format) the code produces `optimized_a.png`, while the spec form —
`optimized_` + the filename without its extension + `.png` — is
`optimized_a.b.png`; the two differ because `split('.')[0]` truncates at
the first dot, not the last. -/
theorem claim_C9_counterexample :
    downloadFilename "a.b.png".toList "png" = "optimized_a.png".toList ∧
    specDownloadFilename "a.b.png".toList "png" = "optimized_a.b.png".toList ∧
    ¬ downloadFilename "a.b.png".toList "png" = specDownloadFilename "a.b.png".toList "png" := by
  refine ⟨by decide, by decide, by decide⟩

/-- C9 (amended): the suggested download filename is `optimized_` + the
portion of the original filename before its FIRST dot + the mapped
extension (`.webp` for webp, `.png` for png, `.jpg` otherwise, jpeg
included) — which agrees with "the filename without its extension"
exactly when the base name contains no further dot. -/
theorem claim_C9_download_filename (stem rest : List Char) (format : String)
    (hstem : '.' ∉ stem) :
    downloadFilename (stem ++ '.' :: rest) format =
      "optimized_".toList ++ stem ++ extensionFor format ∧
    downloadFilename stem format = "optimized_".toList ++ stem ++ extensionFor format := by
  constructor
  · rw [downloadFilename, splitDotHead_append_dot hstem]
  · rw [downloadFilename, splitDotHead_no_dot hstem]

/-- Witness for C9 (amended): `photo.png` downloaded as jpeg becomes
`optimized_photo.jpg`. -/
theorem claim_C9_witness :
    downloadFilename ("photo".toList ++ '.' :: "png".toList) "jpeg" =
      "optimized_".toList ++ "photo".toList ++ extensionFor "jpeg" :=
  (claim_C9_download_filename "photo".toList "png".toList "jpeg" (by decide)).1
